import Mathlib

/-!
Verification development for the AI-Podcast-Producer repository.

The definitions below are a shallow embedding of the repository's data
model and operations:

* the `podcasts` table schema (src/Backend/supabase-alter.sql),
* the Job Store helpers `podcastOperations.getByUser` / `updateStatus`
  and the API wrappers `podcastApi.getById`, `voiceApi.getAll`
  (src/Frontend/src/services/supabase.ts),
* the client-side list filter (src/Frontend/src/pages/PodcastListPage.tsx)
  and the transcript section of the details page
  (src/Frontend/src/pages/PodcastDetailsPage.tsx),
* the creation page's form state, duration menu and `handleSubmit`
  (src/unnamed/part_002),
* spec-modelled parts for repository code absent from the pack — the
  backend retrieval endpoint and the Audio Assembler — marked as such
  in their doc comments.

JavaScript strings are modelled as Lean `String`s; the JS string methods
used by the code (`toLowerCase`, `trim`, `includes`, `split`) are
re-implemented on the underlying character list so that every definition
is kernel-computable.
-/

/-- Embedding of JavaScript `String.prototype.toLowerCase` (ASCII part),
computable on the character list. -/
def lowerStr (s : String) : String :=
  String.mk (s.data.map Char.toLower)

/-- Whitespace test used by the `trim` embedding. -/
def isWsChar (c : Char) : Bool :=
  c = ' ' || c = '\t' || c = '\n' || c = '\r'

/-- Embedding of JavaScript `String.prototype.trim`. -/
def trimStr (s : String) : String :=
  String.mk (((s.data.dropWhile isWsChar).reverse.dropWhile isWsChar).reverse)

/-- Split a character list on a separator character; embedding of
JavaScript `String.prototype.split` with a single-character separator. -/
def splitOnChar (sep : Char) : List Char → List (List Char)
  | [] => [[]]
  | c :: rest =>
    let r := splitOnChar sep rest
    if c = sep then [] :: r
    else
      match r with
      | [] => [[c]]
      | g :: gs => (c :: g) :: gs

/-- Does `needle` occur as a contiguous run inside `hay`?  Embedding of
JavaScript `String.prototype.includes` on character lists. -/
def listIncludes (needle : List Char) : List Char → Bool
  | [] => needle.isEmpty
  | c :: rest => needle.isPrefixOf (c :: rest) || listIncludes needle rest

/-- Embedding of JavaScript `hay.includes(needle)`. -/
def strIncludes (hay needle : String) : Bool :=
  listIncludes needle.data hay.data

/-- Lower-case hexadecimal digit, the character class `[0-9a-f]` of the
UUID regular expression in `podcastApi.getById`. -/
def isHexLower (c : Char) : Bool :=
  c.isDigit || ('a' ≤ c && c ≤ 'f')

/-- Embedding of the test
`/^[0-9a-f]\x7b8\x7d-[0-9a-f]\x7b4\x7d-[0-9a-f]\x7b4\x7d-[0-9a-f]\x7b4\x7d-[0-9a-f]\x7b12\x7d$/i`
from `podcastApi.getById` (src/Frontend/src/services/supabase.ts:253),
applied to an already lower-cased string: exactly five dash-separated
groups of lower-hex digits with lengths 8-4-4-4-12. -/
def isValidUUID (s : String) : Bool :=
  match splitOnChar '-' s.data with
  | [a, b, c, d, e] =>
    a.length = 8 && b.length = 4 && c.length = 4 && d.length = 4 &&
    e.length = 12 && (a ++ b ++ c ++ d ++ e).all isHexLower
  | _ => false

/-- One entry of `metadata.sources` (interface `PodcastRecord`,
src/Frontend/src/services/supabase.ts:36-40). -/
structure SourceRef where
  url : String
  title : String
  source : String
deriving Repr, DecidableEq

/-- The `metadata` JSON payload of a podcast record (interface
`PodcastRecord`, src/Frontend/src/services/supabase.ts:31-42). -/
structure PodcastMetadata where
  topics : List String
  article_count : Nat
  target_duration_seconds : Int
  target_word_count : Nat
  sources : List SourceRef
  recording_date : String
deriving Repr, DecidableEq

/-- One row of the `public.podcasts` table
(src/Backend/supabase-alter.sql:2-16).  `created_at` is a timestamp
modelled as a natural number; nullable columns are `Option`s; `NOT NULL`
columns are plain fields. -/
structure PodcastRow where
  id : String
  created_at : Nat
  user_id : String
  status : String
  duration : Int
  url : Option String
  topics : List String
  host_voice : String
  co_host_voice : String
  language : String
  metadata : Option PodcastMetadata
  transcript : Option String
  message : Option String
deriving Repr, DecidableEq

/-- The CHECK constraint on `podcasts.status`
(src/Backend/supabase-alter.sql:6): `status IN ('processing',
'completed', 'failed')`. -/
def validStatus (s : String) : Bool :=
  s = "processing" || s = "completed" || s = "failed"

/-- The Job Store is the list of rows of the `podcasts` table. -/
def JobStore := List PodcastRow

/-- Row lookup by primary key, the semantics of
`.from('podcasts').select('*').eq('id', podcastId).single()`. -/
def lookupRow (store : List PodcastRow) (id : String) : Option PodcastRow :=
  store.find? (fun r => r.id == id)

/-- Insertion of one row into the `podcasts` table.  The insert succeeds
only when the `status` CHECK constraint holds and the primary key is
fresh; otherwise the database rejects it (`none`). -/
def insertRow (store : List PodcastRow) (row : PodcastRow) :
    Option (List PodcastRow) :=
  if validStatus row.status ∧ lookupRow store row.id = none then
    some (store ++ [row])
  else none

/-- Effect of `podcastOperations.updateStatus` on one row
(src/Frontend/src/services/supabase.ts:125-135): the update payload is
`\x7b status, message \x7d`; when the optional `message` argument is
omitted (`none`), `JSON.stringify` drops the `undefined` key and the
stored message is left unchanged.  No field other than `status` and
`message` is touched. -/
def applyStatus (s : String) (m : Option String) (r : PodcastRow) :
    PodcastRow :=
  match m with
  | some msg => { r with status := s, message := some msg }
  | none => { r with status := s }

/-- `podcastOperations.updateStatus` at the store level: update the rows
matching the id (at most one, by primary-key uniqueness), subject to the
`status` CHECK constraint.  Note the write is unconditional on the
row's current status: no transition discipline is checked. -/
def updateStatus (store : List PodcastRow) (id : String) (s : String)
    (m : Option String) : Option (List PodcastRow) :=
  if validStatus s then
    some (store.map (fun r => if r.id == id then applyStatus s m r else r))
  else none

/-- One Job Store write: an insert or an `updateStatus`. -/
inductive StoreStep : List PodcastRow → List PodcastRow → Prop where
  | insert {st : List PodcastRow} (row : PodcastRow)
      {st2 : List PodcastRow} :
      insertRow st row = some st2 → StoreStep st st2
  | update {st : List PodcastRow} (id s : String) (m : Option String)
      {st2 : List PodcastRow} :
      updateStatus st id s m = some st2 → StoreStep st st2

/-- Stores reachable from the empty table by Job Store writes. -/
inductive StoreReachable : List PodcastRow → Prop where
  | empty : StoreReachable []
  | step {st st2 : List PodcastRow} :
      StoreReachable st → StoreStep st st2 → StoreReachable st2

/-- Rows ordered newest-first: the `order('created_at', \x7b ascending:
false \x7d)` clause of `podcastOperations.getByUser`. -/
def createdDesc (a b : PodcastRow) : Prop :=
  b.created_at ≤ a.created_at

instance : DecidableRel createdDesc :=
  fun a b => Nat.decLe b.created_at a.created_at

instance : IsTotal PodcastRow createdDesc :=
  ⟨fun a b => Nat.le_total b.created_at a.created_at⟩

instance : IsTrans PodcastRow createdDesc :=
  ⟨fun _ _ _ h1 h2 => Nat.le_trans h2 h1⟩

/-- Embedding of `podcastOperations.getByUser`
(src/Frontend/src/services/supabase.ts:94-123): guard on a falsy
`userId` returning `([], 0)` without querying, otherwise the Supabase
query `select('*', count exact).eq('user_id', userId)
.order('created_at', descending).range(from, to)` with
`from = (page-1)*limit` and `to = from+limit-1`.  With an exact count,
PostgREST answers 416 `PGRST103` (requested range not satisfiable) when
the requested offset is positive and lies at or beyond the caller's row
count; `getByUser` rethrows that error (supabase.ts:112-121), and
PodcastListPage.tsx:63-66 handles it by resetting to page 1.  In range,
the slice after skipping `(page-1)*limit` of the caller's rows ordered
newest-first is returned, at most `limit` of them, together with the
exact count of all of the caller's rows. -/
def getByUser (db : List PodcastRow) (userId : String)
    (page limit : Nat) : Except String (List PodcastRow × Nat) :=
  if userId = "" then .ok ([], 0)
  else if 0 < (page - 1) * limit ∧
      (db.filter (fun r => r.user_id == userId)).length ≤
        (page - 1) * limit then .error "PGRST103"
  else
    .ok (((List.insertionSort createdDesc
        (db.filter (fun r => r.user_id == userId))).drop
        ((page - 1) * limit)).take limit,
      (db.filter (fun r => r.user_id == userId)).length)

/-- The shape of a podcast record as returned through
`podcastApi.getById`: the backend returns the full row as JSON, and the
404 fallback fabricates an object carrying only `id`, `status`,
`topics`, `message`, `created_at`, `user_id`
(src/Frontend/src/services/supabase.ts:257-266). -/
structure PodcastView where
  id : String
  status : String
  topics : List String
  message : Option String
  created_at : Nat
  user_id : String
  duration : Option Int
  url : Option String
  metadata : Option PodcastMetadata
  transcript : Option String
deriving Repr, DecidableEq

/-- JSON view of a stored row, as the backend serves it. -/
def viewOfRow (r : PodcastRow) : PodcastView :=
  { id := r.id
    status := r.status
    topics := r.topics
    message := r.message
    created_at := r.created_at
    user_id := r.user_id
    duration := some r.duration
    url := r.url
    metadata := r.metadata
    transcript := r.transcript }

/-- The object fabricated by `podcastApi.getById` on a 404 for a
UUID-shaped id (src/Frontend/src/services/supabase.ts:257-266): status
`processing`, empty topics, a please-wait message, `created_at` from
`Date.now()` (the `now` argument) and an empty `user_id`. -/
def placeholderView (podcastId : String) (now : Nat) : PodcastView :=
  { id := podcastId
    status := "processing"
    topics := []
    message := some "Your podcast is being generated. Please wait..."
    created_at := now
    user_id := ""
    duration := none
    url := none
    metadata := none
    transcript := none }

/-- Embedding of `podcastApi.getById`
(src/Frontend/src/services/supabase.ts:242-283).  Modelled from the
spec: the backend endpoint `GET /api/podcasts/:id` is not in the source
pack; per §6 (Job retrieval returns the current Job record) it is
modelled as a store lookup answering 200 with the record's JSON, or 404
when no record with that id exists.  On 404 the function lower-cases and
trims the id; if the result matches the UUID regular expression it
returns the fabricated placeholder record, otherwise it throws
`Podcast not found`. -/
def podcastApi.getById (store : List PodcastRow) (podcastId : String)
    (now : Nat) : Except String PodcastView :=
  match lookupRow store podcastId with
  | some r => .ok (viewOfRow r)
  | none =>
    if isValidUUID (trimStr (lowerStr podcastId)) then
      .ok (placeholderView podcastId now)
    else
      .error ("Podcast not found: " ++ podcastId)

/-- One entry of the voice catalog (interface `VoiceDetail`,
src/Frontend/src/services/supabase.ts:154-160). -/
structure VoiceDetail where
  voice_id : String
  name : String
  category : String
  labels : List (String × String)
  sample_url : String
deriving Repr, DecidableEq

/-- The JSON body of a `/api/voices` response, as far as
`voiceApi.getAll` inspects it: an array, an object with a `voices`
field, an object without one, or no parseable JSON at all (in which
case `response.json()` throws). -/
inductive VoicesBody where
  | arr (vs : List VoiceDetail)
  | objWithVoices (vs : List VoiceDetail)
  | objWithoutVoices
  | notJson
deriving Repr, DecidableEq

/-- Outcome of the `fetch('/api/voices')` call: a network failure (the
promise rejects) or a response with an `ok` flag and a body. -/
inductive FetchVoices where
  | netError (msg : String)
  | response (ok : Bool) (body : VoicesBody)
deriving Repr, DecidableEq

/-- The `try` block of `voiceApi.getAll`
(src/Frontend/src/services/supabase.ts:169-178): a network failure
rethrows, a non-OK response throws, an unparseable body throws, an
array body is used as-is, and an object body contributes `data.voices
|| []`. -/
def voiceApi.getAllBody (r : FetchVoices) :
    Except String (List VoiceDetail) :=
  match r with
  | .netError msg => .error msg
  | .response false _ => .error "Failed to fetch voices"
  | .response true .notJson => .error "invalid json"
  | .response true (.arr vs) => .ok vs
  | .response true (.objWithVoices vs) => .ok vs
  | .response true .objWithoutVoices => .ok []

/-- Embedding of `voiceApi.getAll`
(src/Frontend/src/services/supabase.ts:168-184): the surrounding
`catch` turns every thrown error into the empty voice list instead of
propagating it. -/
def voiceApi.getAll (r : FetchVoices) : List VoiceDetail :=
  match voiceApi.getAllBody r with
  | .ok vs => vs
  | .error _ => []

/-- The search predicate of the list page's `filteredPodcasts`
(src/Frontend/src/pages/PodcastListPage.tsx:84-86): some topic,
lower-cased, contains the lower-cased search query. -/
def matchesSearch (searchQuery : String) (p : PodcastRow) : Bool :=
  p.topics.any (fun topic => strIncludes (lowerStr topic) (lowerStr searchQuery))

/-- The status predicate of `filteredPodcasts`
(src/Frontend/src/pages/PodcastListPage.tsx:87). -/
def matchesStatus (statusFilter : String) (p : PodcastRow) : Bool :=
  statusFilter == "all" || p.status == statusFilter

/-- Oldest-first order on rows (sort option `created_asc`). -/
def createdAsc (a b : PodcastRow) : Prop :=
  a.created_at ≤ b.created_at

instance : DecidableRel createdAsc :=
  fun a b => Nat.decLe a.created_at b.created_at

/-- Shortest-first order on rows (sort option `duration_asc`). -/
def durationAsc (a b : PodcastRow) : Prop :=
  a.duration ≤ b.duration

instance : DecidableRel durationAsc :=
  fun a b => Int.decLe a.duration b.duration

/-- Longest-first order on rows (sort option `duration_desc`). -/
def durationDesc (a b : PodcastRow) : Prop :=
  b.duration ≤ a.duration

instance : DecidableRel durationDesc :=
  fun a b => Int.decLe b.duration a.duration

/-- The `.sort` comparator switch of `filteredPodcasts`
(src/Frontend/src/pages/PodcastListPage.tsx:90-103); the default branch
compares everything equal, leaving the order unchanged (stable sort). -/
def sortPodcasts (sortKey : String) (l : List PodcastRow) :
    List PodcastRow :=
  if sortKey = "created_asc" then List.insertionSort createdAsc l
  else if sortKey = "created_desc" then List.insertionSort createdDesc l
  else if sortKey = "duration_asc" then List.insertionSort durationAsc l
  else if sortKey = "duration_desc" then List.insertionSort durationDesc l
  else l

/-- Embedding of `filteredPodcasts`
(src/Frontend/src/pages/PodcastListPage.tsx:82-103): filter by search
query and status filter, then sort by the selected key. -/
def filteredPodcasts (podcasts : List PodcastRow)
    (searchQuery statusFilter sortKey : String) : List PodcastRow :=
  sortPodcasts sortKey
    (podcasts.filter (fun p => matchesSearch searchQuery p && matchesStatus statusFilter p))

/-- What the transcript card of the details page renders
(src/Frontend/src/pages/PodcastDetailsPage.tsx:544-560). -/
inductive TranscriptView where
  | paragraphs (ps : List String)
  | unavailableFallback
  | processingNote
  | failedNote
deriving Repr, DecidableEq

/-- Embedding of the transcript section of `PodcastDetailsPage`
(src/Frontend/src/pages/PodcastDetailsPage.tsx:544-560): a `completed`
podcast with a truthy transcript renders its paragraphs (split on
newlines); a `completed` podcast whose transcript is absent or the
empty string (falsy in JavaScript) renders the explicit
`No transcript available` fallback; otherwise a processing or failure
note is shown. -/
def transcriptSection (status : String) (transcript : Option String) :
    TranscriptView :=
  if status = "completed" then
    match transcript with
    | some t =>
      if t = "" then .unavailableFallback
      else .paragraphs ((splitOnChar '\n' t.data).map String.mk)
    | none => .unavailableFallback
  else if status = "processing" then .processingNote
  else .failedNote

/-- One entry of the creation page's duration menu: a second count and
its display label (src/unnamed/part_002:101-108). -/
structure DurationOption where
  value : Int
  label : String
deriving Repr, DecidableEq

/-- The `DURATION_OPTIONS` constant of `CreatePodcastPage`
(src/unnamed/part_002:101-108). -/
def DURATION_OPTIONS : List DurationOption :=
  [ { value := 60, label := "1 minute" }
  , { value := 300, label := "5 minutes" }
  , { value := 600, label := "10 minutes" }
  , { value := 900, label := "15 minutes" }
  , { value := 1800, label := "30 minutes" }
  , { value := 3600, label := "60 minutes" } ]

/-- The form state of `CreatePodcastPage`: the `useState` hooks for
topics, duration, host voice, co-host voice and language
(src/unnamed/part_002:116-121). -/
structure CreateForm where
  topics : List String
  duration : Int
  hostVoice : String
  coHostVoice : String
  language : String
deriving Repr, DecidableEq

/-- The initial form state (src/unnamed/part_002:116-121): no topics,
duration 300, empty voice ids, language `en-US`. -/
def initialCreateForm : CreateForm :=
  { topics := []
    duration := 300
    hostVoice := ""
    coHostVoice := ""
    language := "en-US" }

/-- Form states reachable in `CreatePodcastPage`.  The duration is
changed only by the menu buttons (src/unnamed/part_002:369-373,
`onClick` calls `setDuration(option.value)` over `DURATION_OPTIONS`),
so it only ever holds menu values; topics, the two voice ids and the
language are over-approximated as settable to arbitrary values (they
come from `handleAddTopic` and `handleRemoveTopic`, the
`VoiceSelector` callbacks and the language buttons). -/
inductive FormReachable : CreateForm → Prop where
  | init : FormReachable initialCreateForm
  | setTopics {f : CreateForm} (ts : List String) :
      FormReachable f → FormReachable { f with topics := ts }
  | setDuration {f : CreateForm} (opt : DurationOption) :
      opt ∈ DURATION_OPTIONS → FormReachable f →
      FormReachable { f with duration := opt.value }
  | setHostVoice {f : CreateForm} (v : String) :
      FormReachable f → FormReachable { f with hostVoice := v }
  | setCoHostVoice {f : CreateForm} (v : String) :
      FormReachable f → FormReachable { f with coHostVoice := v }
  | setLanguage {f : CreateForm} (lang : String) :
      FormReachable f → FormReachable { f with language := lang }

/-- The body of a `POST /api/podcasts` request
(`podcastApi.create`, src/Frontend/src/services/supabase.ts:199-221):
the form data spread together with the `user_id`. -/
structure CreateRequest where
  user_id : String
  topics : List String
  duration : Int
  host_voice : String
  co_host_voice : String
  language : String
deriving Repr, DecidableEq

/-- Embedding of `handleSubmit` (src/unnamed/part_002:174-221): the
submission aborts with a toast (no creation call, `none`) when no user
is logged in, the topics list is empty, or either voice id is falsy
(the empty string); otherwise it calls `podcastApi.create` with the
form data and the user id.  There is no check that the two voice ids
differ (nor in the submit button's `disabled` condition,
src/unnamed/part_002:456). -/
def handleSubmit : Option String → CreateForm → Option CreateRequest
  | none, _ => none
  | some uid, form =>
    if form.topics = [] then none
    else if form.hostVoice = "" then none
    else if form.coHostVoice = "" then none
    else
      some
        { user_id := uid
          topics := form.topics
          duration := form.duration
          host_voice := form.hostVoice
          co_host_voice := form.coHostVoice
          language := form.language }

/-- The row created for an accepted creation request: the schema
defaults apply (`status` defaults to `processing`; `url`, `metadata`,
`transcript`, `message` start NULL), the id and timestamp are assigned
by the database. -/
def rowOfRequest (req : CreateRequest) (id : String) (t : Nat) :
    PodcastRow :=
  { id := id
    created_at := t
    user_id := req.user_id
    status := "processing"
    duration := req.duration
    url := none
    topics := req.topics
    host_voice := req.host_voice
    co_host_voice := req.co_host_voice
    language := req.language
    metadata := none
    transcript := none
    message := none }

/-- One write issued by the application itself: a submission of a
reachable form state that passes `handleSubmit`'s validation, or an
`updateStatus`. -/
inductive AppStep : List PodcastRow → List PodcastRow → Prop where
  | create {st : List PodcastRow} (form : CreateForm)
      (userId id : String) (t : Nat) (req : CreateRequest)
      {st2 : List PodcastRow} :
      FormReachable form →
      handleSubmit (some userId) form = some req →
      insertRow st (rowOfRequest req id t) = some st2 →
      AppStep st st2
  | update {st : List PodcastRow} (id s : String) (m : Option String)
      {st2 : List PodcastRow} :
      updateStatus st id s m = some st2 → AppStep st st2

/-- Stores reachable from the empty table by application writes. -/
inductive AppReachable : List PodcastRow → Prop where
  | empty : AppReachable []
  | step {st st2 : List PodcastRow} :
      AppReachable st → AppStep st st2 → AppReachable st2

/-- Modelled from the spec: the Audio Assembler (§4.4) is backend code
absent from the pack.  An audio segment is
`\x7b speaker, raw_audio_bytes, duration \x7d` (§3); durations are
modelled as exact rationals. -/
structure AudioSegment where
  speaker : String
  raw_audio_bytes : List Nat
  duration : ℚ
deriving Repr, DecidableEq

/-- Modelled from the spec: the Assembler's reported output duration
(§4.4) — concatenate the segments in order, inserting one fixed
silence gap between consecutive segments, so the final duration is the
true sum of segment durations plus the inserted gaps. -/
def assembleDuration : List AudioSegment → ℚ → ℚ
  | [], _ => 0
  | [s], _ => s.duration
  | s :: s2 :: rest, gap => s.duration + gap + assembleDuration (s2 :: rest) gap

/-- Sum of the durations of a segment list. -/
def sumDurations (l : List AudioSegment) : ℚ :=
  (l.map AudioSegment.duration).sum

/-- Scenario E of §8: five segments of durations 2, 3, 1, 4, 2
seconds. -/
def scenarioESegments : List AudioSegment :=
  [ { speaker := "host", raw_audio_bytes := [], duration := 2 }
  , { speaker := "co_host", raw_audio_bytes := [], duration := 3 }
  , { speaker := "host", raw_audio_bytes := [], duration := 1 }
  , { speaker := "co_host", raw_audio_bytes := [], duration := 4 }
  , { speaker := "host", raw_audio_bytes := [], duration := 2 } ]

/-- A processing row as created by the database defaults, used as a
concrete fixture in witnesses and counterexamples. -/
def sampleRow : PodcastRow :=
  { id := "11111111-1111-1111-1111-111111111111"
    created_at := 100
    user_id := "user-1"
    status := "processing"
    duration := 300
    url := none
    topics := ["technology"]
    host_voice := "voiceA"
    co_host_voice := "voiceB"
    language := "en-US"
    metadata := none
    transcript := none
    message := none }

/-- `sampleRow` after `updateStatus(id, 'completed')`. -/
def sampleRowCompleted : PodcastRow :=
  { sampleRow with status := "completed" }

/-- `sampleRowCompleted` after a further `updateStatus(id,
'processing')`. -/
def sampleRowBack : PodcastRow :=
  { sampleRowCompleted with status := "processing" }

/-- A row whose `user_id` is the empty string (`user_id` is `TEXT NOT
NULL`, and the empty string is a legal TEXT value). -/
def emptyUserRow : PodcastRow :=
  { sampleRow with
      id := "22222222-2222-2222-2222-222222222222"
      user_id := "" }

/-- A row with an empty `topics` array (the schema default `'\x7b\x7d'`). -/
def noTopicsRow : PodcastRow :=
  { sampleRow with
      id := "33333333-3333-3333-3333-333333333333"
      topics := [] }

/-- `sampleRow` after `updateStatus(id, 'failed', 'generation
failed')`. -/
def sampleRowFailed : PodcastRow :=
  { sampleRow with status := "failed", message := some "generation failed" }

/-- `sampleRowFailed` after a further `updateStatus(id,
'processing')` (the omitted message leaves the stored one in place). -/
def sampleRowFailedBack : PodcastRow :=
  { sampleRowFailed with status := "processing" }

/-- The all-zero UUID, a syntactically valid UUID that names no stored
record. -/
def zeroUuid : String := "00000000-0000-0000-0000-000000000000"

/-- A form whose host and co-host voice ids are identical and
non-empty (nothing in the page forbids this state). -/
def identicalVoicesForm : CreateForm :=
  { topics := ["technology"]
    duration := 300
    hostVoice := "voiceA"
    coHostVoice := "voiceA"
    language := "en-US" }

/-- The request `handleSubmit` sends for `identicalVoicesForm` under
user `user-1`. -/
def identicalVoicesRequest : CreateRequest :=
  { user_id := "user-1"
    topics := ["technology"]
    duration := 300
    host_voice := "voiceA"
    co_host_voice := "voiceA"
    language := "en-US" }

/-- A creation form matching `sampleRow`. -/
def sampleForm : CreateForm :=
  { topics := ["technology"]
    duration := 300
    hostVoice := "voiceA"
    coHostVoice := "voiceB"
    language := "en-US" }

/-- The request `handleSubmit (some "user-1") sampleForm` produces. -/
def sampleRequest : CreateRequest :=
  { user_id := "user-1"
    topics := ["technology"]
    duration := 300
    host_voice := "voiceA"
    co_host_voice := "voiceB"
    language := "en-US" }

/-- The consistency property claimed for one Job record: a completed
record has `metadata`, `transcript` and `url` present, a failed record
has all three absent. -/
def jobRecordConsistent (r : PodcastRow) : Prop :=
  (r.status = "completed" →
    r.metadata ≠ none ∧ r.transcript ≠ none ∧ r.url ≠ none) ∧
  (r.status = "failed" →
    r.metadata = none ∧ r.transcript = none ∧ r.url = none)

instance (r : PodcastRow) : Decidable (jobRecordConsistent r) := by
  unfold jobRecordConsistent
  exact inferInstance

/-- What `updateStatus` guarantees (and all it guarantees) on success:
the matched rows get exactly the requested status and otherwise keep
every field other than `message`; unmatched rows survive unchanged. -/
def updateStatusSpec (st : List PodcastRow) (id s : String)
    (m : Option String) : Prop :=
  ∃ st2, updateStatus st id s m = some st2 ∧
    (∀ r ∈ st, r.id ≠ id → r ∈ st2) ∧
    ∀ r ∈ st, r.id = id →
      applyStatus s m r ∈ st2 ∧
      (applyStatus s m r).status = s ∧
      (applyStatus s m r).metadata = r.metadata ∧
      (applyStatus s m r).transcript = r.transcript ∧
      (applyStatus s m r).url = r.url ∧
      (applyStatus s m r).duration = r.duration ∧
      (applyStatus s m r).created_at = r.created_at ∧
      (applyStatus s m r).user_id = r.user_id

/-- The full behavior of `podcastApi.getById`: a stored record is
returned as-is with its true status; a missing record yields
`not found` only for ids that do not normalize to a UUID shape, and a
fabricated `processing` placeholder for ids that do. -/
def getByIdSpec (store : List PodcastRow) (podcastId : String)
    (now : Nat) : Prop :=
  (∀ r, lookupRow store podcastId = some r →
    r ∈ store ∧ r.id = podcastId ∧
    podcastApi.getById store podcastId now = .ok (viewOfRow r) ∧
    (viewOfRow r).status = r.status) ∧
  (lookupRow store podcastId = none →
    (isValidUUID (trimStr (lowerStr podcastId)) = false →
      podcastApi.getById store podcastId now =
        .error ("Podcast not found: " ++ podcastId)) ∧
    (isValidUUID (trimStr (lowerStr podcastId)) = true →
      podcastApi.getById store podcastId now =
        .ok (placeholderView podcastId now) ∧
      (placeholderView podcastId now).status = "processing" ∧
      (placeholderView podcastId now).user_id = ""))

/-- The page slice `getByUser` serves on an in-range query: the
caller's rows ordered newest-first, the first `(page-1)*limit`
skipped, at most `limit` taken. -/
def pageSlice (db : List PodcastRow) (uid : String)
    (page limit : Nat) : List PodcastRow :=
  ((List.insertionSort createdDesc
      (db.filter (fun r => r.user_id == uid))).drop
    ((page - 1) * limit)).take limit

/-- What `getByUser` returns for a non-empty user id and an in-range
page: only the caller's rows, ordered newest-first, at most `limit` of
them after skipping `(page-1)*limit`, together with the exact count of
all of the caller's rows. -/
def getByUserSpec (db : List PodcastRow) (uid : String)
    (page limit : Nat) : Prop :=
  getByUser db uid page limit =
    .ok (pageSlice db uid page limit,
      (db.filter (fun r => r.user_id == uid)).length) ∧
  (∀ r ∈ pageSlice db uid page limit, r.user_id = uid) ∧
  List.Sorted createdDesc (pageSlice db uid page limit) ∧
  (pageSlice db uid page limit).length ≤ limit ∧
  List.Perm
    (List.insertionSort createdDesc (db.filter (fun r => r.user_id == uid)))
    (db.filter (fun r => r.user_id == uid))

/-- Every row of a store has its duration within the spec bounds
[60, 3600]. -/
def durationsInRange (st : List PodcastRow) : Prop :=
  ∀ r ∈ st, 60 ≤ r.duration ∧ r.duration ≤ 3600

/-- The status field written by `applyStatus` is exactly its argument. -/
theorem applyStatus_status (s : String) (m : Option String)
    (r : PodcastRow) : (applyStatus s m r).status = s := by
  cases m <;> rfl

/-- `applyStatus` leaves every field other than `status` and `message`
unchanged. -/
theorem applyStatus_preserves (s : String) (m : Option String)
    (r : PodcastRow) :
    (applyStatus s m r).id = r.id ∧
    (applyStatus s m r).created_at = r.created_at ∧
    (applyStatus s m r).user_id = r.user_id ∧
    (applyStatus s m r).duration = r.duration ∧
    (applyStatus s m r).url = r.url ∧
    (applyStatus s m r).topics = r.topics ∧
    (applyStatus s m r).host_voice = r.host_voice ∧
    (applyStatus s m r).co_host_voice = r.co_host_voice ∧
    (applyStatus s m r).language = r.language ∧
    (applyStatus s m r).metadata = r.metadata ∧
    (applyStatus s m r).transcript = r.transcript := by
  cases m <;> exact ⟨rfl, rfl, rfl, rfl, rfl, rfl, rfl, rfl, rfl, rfl, rfl⟩

/-- Inversion of a successful insert: the CHECK constraint held and the
new store is the old one with the row appended. -/
theorem insertRow_some (st : List PodcastRow) (row : PodcastRow)
    (st2 : List PodcastRow) (h : insertRow st row = some st2) :
    validStatus row.status = true ∧ st2 = st ++ [row] := by
  unfold insertRow at h
  split at h
  case isTrue hc =>
    injection h with h2
    exact ⟨hc.1, h2.symm⟩
  case isFalse hc => exact absurd h (by simp)

/-- Inversion of a successful `updateStatus`: the CHECK constraint held
and the new store maps the matched rows through `applyStatus`. -/
theorem updateStatus_some (st : List PodcastRow) (id s : String)
    (m : Option String) (st2 : List PodcastRow)
    (h : updateStatus st id s m = some st2) :
    validStatus s = true ∧
    st2 = st.map (fun r => if r.id == id then applyStatus s m r else r) := by
  unfold updateStatus at h
  split at h
  case isTrue hc =>
    injection h with h2
    exact ⟨hc, h2.symm⟩
  case isFalse hc => exact absurd h (by simp)

/-- C5: every persisted Job record's status is one of `processing`,
`completed`, `failed`: the CHECK constraint guards every create and
update, so every store reachable by Job Store writes satisfies the
invariant and a caller can never observe another status value. -/
theorem reachable_status_valid (st : List PodcastRow)
    (h : StoreReachable st) :
    ∀ r ∈ st, validStatus r.status = true := by
  induction h with
  | empty => intro r hr; simp at hr
  | step _ hstep ih =>
    intro r hr
    cases hstep with
    | insert row hins =>
      obtain ⟨hv, rfl⟩ := insertRow_some _ _ _ hins
      rcases List.mem_append.mp hr with hl | hrr
      · exact ih r hl
      · rw [List.mem_singleton.mp hrr]; exact hv
    | update id s m hupd =>
      obtain ⟨hv, rfl⟩ := updateStatus_some _ _ _ _ _ hupd
      obtain ⟨a, ha, rfl⟩ := List.mem_map.mp hr
      by_cases hid : (a.id == id) = true
      · rw [if_pos hid, applyStatus_status]; exact hv
      · rw [if_neg (by simp [hid])]; exact ih a ha

/-- Witness for C5: the singleton store holding `sampleRow` is
reachable and its row's status is valid. -/
theorem reachable_status_valid_witness :
    StoreReachable [sampleRow] ∧ validStatus sampleRow.status = true :=
  have hre : StoreReachable [sampleRow] :=
    StoreReachable.step StoreReachable.empty
      (StoreStep.insert sampleRow (by decide))
  ⟨hre, reachable_status_valid [sampleRow] hre sampleRow (by simp)⟩

/-- Counterexample for C1: the store reached by inserting a fresh
`processing` row and then calling `updateStatus(id, 'completed')` holds
a record with `status = completed` whose `metadata`, `transcript` and
`url` are all absent — so the Job Store can produce a completed record
with the three fields missing, refuting the claimed invariant. -/
theorem completed_missing_fields_counterexample :
    StoreReachable [sampleRowCompleted] ∧
    ¬ jobRecordConsistent sampleRowCompleted := by
  constructor
  · have h1 : StoreReachable [sampleRow] :=
      StoreReachable.step StoreReachable.empty
        (StoreStep.insert sampleRow (by decide))
    exact StoreReachable.step h1
      (StoreStep.update sampleRow.id "completed" none (by decide))
  · decide

/-- C1 (amended): the schema CHECK constrains only `status` and
`updateStatus` writes only `status` and `message`, so the Job Store
admits a reachable record with `status = completed` and `metadata`,
`transcript`, `url` all absent; the details page anticipates exactly
this record, rendering its explicit no-transcript fallback. -/
theorem completed_without_fields_reachable :
    StoreReachable [sampleRowCompleted] ∧
    sampleRowCompleted.status = "completed" ∧
    sampleRowCompleted.metadata = none ∧
    sampleRowCompleted.transcript = none ∧
    sampleRowCompleted.url = none ∧
    transcriptSection sampleRowCompleted.status sampleRowCompleted.transcript =
      .unavailableFallback := by
  refine ⟨?_, by decide, by decide, by decide, by decide, by decide⟩
  have h1 : StoreReachable [sampleRow] :=
    StoreReachable.step StoreReachable.empty
      (StoreStep.insert sampleRow (by decide))
  exact StoreReachable.step h1
    (StoreStep.update sampleRow.id "completed" none (by decide))

/-- Counterexample for C2: after the sequence insert, `updateStatus(id,
'failed', 'generation failed')`, `updateStatus(id, 'processing')`, the
record that had left `processing` for the terminal `failed` state is
back in `processing` — a later update returned it to `processing` and
changed a field of a failed record. -/
theorem status_regression_counterexample :
    updateStatus [sampleRow] sampleRow.id "failed"
      (some "generation failed") = some [sampleRowFailed] ∧
    sampleRowFailed.status = "failed" ∧
    updateStatus [sampleRowFailed] sampleRow.id "processing" none =
      some [sampleRowFailedBack] ∧
    sampleRowFailedBack.status = "processing" ∧
    sampleRowFailedBack.status ≠ sampleRowFailed.status := by
  exact ⟨by decide, by decide, by decide, by decide, by decide⟩

/-- C2 (amended): `updateStatus` enforces no transition discipline:
whenever the new status passes the CHECK constraint, the update
succeeds and sets the matched rows' status to exactly the requested
value regardless of their current status — including setting a
completed or failed record back to `processing` — while leaving every
field other than `status` and `message` unchanged. -/
theorem updateStatus_unconditional (st : List PodcastRow)
    (id s : String) (m : Option String) (hv : validStatus s = true) :
    updateStatusSpec st id s m := by
  refine ⟨st.map (fun r => if r.id == id then applyStatus s m r else r),
    ?_, ?_, ?_⟩
  · unfold updateStatus
    rw [if_pos hv]
  · intro r hr hne
    refine List.mem_map.mpr ⟨r, hr, ?_⟩
    rw [if_neg (by simp [hne])]
  · intro r hr heq
    have hmem : applyStatus s m r ∈
        st.map (fun r => if r.id == id then applyStatus s m r else r) := by
      refine List.mem_map.mpr ⟨r, hr, ?_⟩
      rw [if_pos (by simp [heq])]
    obtain ⟨_, _, huser, hdur, hurl, _, _, _, _, hmeta, htrans⟩ :=
      applyStatus_preserves s m r
    exact ⟨hmem, applyStatus_status s m r, hmeta, htrans, hurl, hdur,
      (applyStatus_preserves s m r).2.1, huser⟩

/-- Witness for C2 (amended): applying `updateStatus` with status
`processing` to the store holding the failed record succeeds and
behaves as specified. -/
theorem updateStatus_unconditional_witness :
    validStatus "processing" = true ∧
    updateStatusSpec [sampleRowFailed] sampleRow.id "processing" none :=
  ⟨by decide,
    updateStatus_unconditional [sampleRowFailed] sampleRow.id "processing"
      none (by decide)⟩

/-- Counterexample for C3: the all-zero UUID names no record in the
empty store, yet `podcastApi.getById` answers with a fabricated
`processing` record instead of reporting not-found — it returns a
record that was never stored. -/
theorem getById_fabricates_counterexample :
    lookupRow [] zeroUuid = none ∧
    podcastApi.getById [] zeroUuid 0 = .ok (placeholderView zeroUuid 0) ∧
    (placeholderView zeroUuid 0).status = "processing" := by
  exact ⟨by decide, by rfl, by decide⟩

/-- C3 (amended): `podcastApi.getById` returns the stored record with
its true status when one exists; when none exists it reports not-found
only for ids that do not normalize to a canonical UUID shape, and for
UUID-shaped ids it returns a fabricated placeholder record with status
`processing` and an empty `user_id`. -/
theorem getById_spec (store : List PodcastRow) (podcastId : String)
    (now : Nat) : getByIdSpec store podcastId now := by
  refine ⟨?_, ?_⟩
  · intro r hfind
    refine ⟨List.mem_of_find?_eq_some hfind, ?_, ?_, rfl⟩
    · have := List.find?_some hfind
      exact beq_iff_eq.mp this
    · unfold podcastApi.getById
      rw [show lookupRow store podcastId = some r from hfind]
  · intro hnone
    constructor
    · intro hfalse
      unfold podcastApi.getById
      rw [show lookupRow store podcastId = none from hnone]
      rw [if_neg (by simp [hfalse])]
    · intro htrue
      refine ⟨?_, rfl, rfl⟩
      unfold podcastApi.getById
      rw [show lookupRow store podcastId = none from hnone]
      rw [if_pos htrue]

/-- Witness for C3 (amended): on a store holding `sampleRow`, looking
up `sampleRow.id` finds it and the amended retrieval contract holds. -/
theorem getById_spec_witness :
    lookupRow [sampleRow] sampleRow.id = some sampleRow ∧
    getByIdSpec [sampleRow] sampleRow.id 0 :=
  ⟨by decide, getById_spec [sampleRow] sampleRow.id 0⟩

/-- Counterexample for C4: a form whose host and co-host voice ids are
identical (and non-empty) violates the claimed distinctness condition,
yet `handleSubmit` performs the creation call with it: no distinctness
check exists anywhere in the page. -/
theorem handleSubmit_identical_voices_counterexample :
    identicalVoicesForm.hostVoice = identicalVoicesForm.coHostVoice ∧
    identicalVoicesForm.hostVoice ≠ "" ∧
    handleSubmit (some "user-1") identicalVoicesForm =
      some identicalVoicesRequest := by
  exact ⟨rfl, by decide, by decide⟩

/-- C4 (amended): `handleSubmit` performs the creation call only when a
user is logged in, at least one topic is present and both voice ids
are non-empty — and under those conditions it always performs it, with
the form data and the user id, even when the two voice ids coincide:
host-vs-co-host distinctness is not checked. -/
theorem handleSubmit_validation (user : Option String)
    (form : CreateForm) :
    ((user = none ∨ form.topics = [] ∨ form.hostVoice = "" ∨
        form.coHostVoice = "") → handleSubmit user form = none) ∧
    ∀ uid, user = some uid → form.topics ≠ [] → form.hostVoice ≠ "" →
      form.coHostVoice ≠ "" →
      handleSubmit user form = some
        { user_id := uid
          topics := form.topics
          duration := form.duration
          host_voice := form.hostVoice
          co_host_voice := form.coHostVoice
          language := form.language } := by
  constructor
  · intro h
    cases user with
    | none => rfl
    | some uid =>
      rcases h with h | h | h | h
      · exact absurd h (by simp)
      · simp [handleSubmit, h]
      · simp [handleSubmit, h]
      · simp [handleSubmit, h]
  · intro uid huser ht hh hc
    subst huser
    simp [handleSubmit, ht, hh, hc]

/-- Witness for C4 (amended): the identical-voices form has a user,
topics and non-empty voice ids, so the creation call goes through with
its data. -/
theorem handleSubmit_validation_witness :
    identicalVoicesForm.topics ≠ [] ∧
    identicalVoicesForm.hostVoice ≠ "" ∧
    identicalVoicesForm.coHostVoice ≠ "" ∧
    handleSubmit (some "user-1") identicalVoicesForm =
      some identicalVoicesRequest :=
  ⟨by decide, by decide, by decide,
    (handleSubmit_validation (some "user-1") identicalVoicesForm).2
      "user-1" rfl (by decide) (by decide) (by decide)⟩

/-- Counterexample for C6: (i) for user `user-1` the store holds one
record, yet page 3 with limit 10 (so `p >= 1`, `l >= 1`) does not
return the empty slice with the exact count: the out-of-range offset
makes the query throw the PostgREST range error `PGRST103`, which
PodcastListPage.tsx:63-66 handles by resetting to page 1; (ii) the
store holds exactly one record whose `user_id` is the empty string,
yet `getByUser` with that user id reports total 0, not the exact count
1, because of the falsy-userId guard. -/
theorem getByUser_counterexample :
    getByUser [sampleRow] "user-1" 3 10 = .error "PGRST103" ∧
    emptyUserRow.user_id = "" ∧
    getByUser [emptyUserRow] "" 1 10 = .ok ([], 0) ∧
    (([emptyUserRow] : List PodcastRow).filter
      (fun r => r.user_id == "")).length = 1 := by
  exact ⟨by rfl, by decide, by rfl, by decide⟩

/-- C6 (amended): for every non-empty user id, page `p >= 1` and limit
`l >= 1`: when the offset `(p-1)*l` is positive and at or beyond the
user's row count the query throws the range error `PGRST103`, and
otherwise `getByUser` returns only that user's records, ordered by
`created_at` descending, skipping the first `(p-1)*l` and returning at
most `l`, together with the exact total count of that user's records
(the empty user id short-circuits to no rows and count 0 without
querying). -/
theorem getByUser_paginates (db : List PodcastRow) (uid : String)
    (page limit : Nat) (huid : uid ≠ "") (hp : 1 ≤ page)
    (hl : 1 ≤ limit) :
    ((0 < (page - 1) * limit ∧
        (db.filter (fun r => r.user_id == uid)).length ≤
          (page - 1) * limit) →
      getByUser db uid page limit = .error "PGRST103") ∧
    (((page - 1) * limit = 0 ∨
        (page - 1) * limit <
          (db.filter (fun r => r.user_id == uid)).length) →
      getByUserSpec db uid page limit) := by
  constructor
  · intro hoff
    unfold getByUser
    rw [if_neg huid, if_pos hoff]
  · intro hin
    have hnot : ¬ (0 < (page - 1) * limit ∧
        (db.filter (fun r => r.user_id == uid)).length ≤
          (page - 1) * limit) := by
      rcases hin with h0 | hlt
      · rw [h0]
        intro hc
        exact lt_irrefl 0 hc.1
      · exact fun hc => absurd hlt (not_lt.mpr hc.2)
    have hunf : getByUser db uid page limit =
        .ok (pageSlice db uid page limit,
          (db.filter (fun r => r.user_id == uid)).length) := by
      unfold getByUser pageSlice
      rw [if_neg huid, if_neg hnot]
    refine ⟨hunf, ?_, ?_, ?_, ?_⟩
    · intro r hr
      have hr2 : r ∈ List.insertionSort createdDesc
          (db.filter (fun r => r.user_id == uid)) :=
        (List.drop_sublist _ _).subset ((List.take_sublist _ _).subset hr)
      have hr3 : r ∈ db.filter (fun r => r.user_id == uid) :=
        (List.perm_insertionSort createdDesc _).mem_iff.mp hr2
      exact beq_iff_eq.mp (List.mem_filter.mp hr3).2
    · exact (List.sorted_insertionSort createdDesc _).sublist
        ((List.take_sublist _ _).trans (List.drop_sublist _ _))
    · exact List.length_take_le _ _
    · exact List.perm_insertionSort createdDesc _

/-- Witness for C6 (amended): the contract instantiated on a one-row
store for user `user-1`, page 1 (offset 0, in range), limit 10. -/
theorem getByUser_paginates_witness :
    ("user-1" : String) ≠ "" ∧ (1 - 1) * 10 = 0 ∧
    getByUserSpec [sampleRow] "user-1" 1 10 :=
  ⟨by decide, rfl,
    (getByUser_paginates [sampleRow] "user-1" 1 10 (by decide) (by decide)
      (by decide)).2 (Or.inl rfl)⟩

/-- A request accepted by `handleSubmit` carries the form's duration
unchanged. -/
theorem handleSubmit_some_duration (user : Option String)
    (form : CreateForm) (req : CreateRequest)
    (h : handleSubmit user form = some req) :
    req.duration = form.duration := by
  cases user with
  | none => simp [handleSubmit] at h
  | some uid =>
    simp only [handleSubmit] at h
    split at h
    · exact absurd h (by simp)
    · split at h
      · exact absurd h (by simp)
      · split at h
        · exact absurd h (by simp)
        · injection h with h2
          rw [← h2]

/-- The duration of a reachable form state is always one of the menu
values: it starts at 300 and is only ever set to an option's value. -/
theorem formReachable_duration (f : CreateForm) (h : FormReachable f) :
    ∃ opt ∈ DURATION_OPTIONS, f.duration = opt.value := by
  induction h with
  | init => exact ⟨{ value := 300, label := "5 minutes" }, by decide, rfl⟩
  | setTopics ts _ ih => exact ih
  | setDuration opt hmem _ _ => exact ⟨opt, hmem, rfl⟩
  | setHostVoice v _ ih => exact ih
  | setCoHostVoice v _ ih => exact ih
  | setLanguage lang _ ih => exact ih

/-- C7: every duration menu option lies in [60, 3600], and every store
reachable by the application's own writes (submission of a reachable
form state, `updateStatus`) holds only records whose duration is in
[60, 3600]: the form's duration only ever holds menu values, the
submission passes it through unchanged, and no update touches the
duration column.  (The SQL schema itself carries no CHECK on
`duration`.) -/
theorem duration_bounds_invariant :
    (∀ opt ∈ DURATION_OPTIONS, 60 ≤ opt.value ∧ opt.value ≤ 3600) ∧
    ∀ st, AppReachable st → durationsInRange st := by
  have hopts : ∀ opt ∈ DURATION_OPTIONS,
      60 ≤ opt.value ∧ opt.value ≤ 3600 := by decide
  refine ⟨hopts, ?_⟩
  intro st h
  induction h with
  | empty => intro r hr; simp at hr
  | step _ hstep ih =>
    intro r hr
    cases hstep with
    | create form userId id t req hform hsub hins =>
      obtain ⟨_, rfl⟩ := insertRow_some _ _ _ hins
      rcases List.mem_append.mp hr with hl | hrr
      · exact ih r hl
      · rw [List.mem_singleton.mp hrr]
        obtain ⟨opt, hmem, hdur⟩ := formReachable_duration form hform
        have hrow : (rowOfRequest req id t).duration = opt.value := by
          rw [show (rowOfRequest req id t).duration = req.duration from rfl,
            handleSubmit_some_duration _ _ _ hsub, hdur]
        rw [hrow]
        exact hopts opt hmem
    | update id s m hupd =>
      obtain ⟨_, rfl⟩ := updateStatus_some _ _ _ _ _ hupd
      obtain ⟨a, ha, rfl⟩ := List.mem_map.mp hr
      by_cases hid : (a.id == id) = true
      · rw [if_pos hid]
        have hdur := (applyStatus_preserves s m a).2.2.2.1
        rw [hdur]
        exact ih a ha
      · rw [if_neg (by simp [hid])]
        exact ih a ha

/-- Witness for C7: `sampleForm` is a reachable form state, the store
created by submitting it is app-reachable, and its record's duration
lies in [60, 3600]. -/
theorem duration_bounds_invariant_witness :
    AppReachable [sampleRow] ∧ durationsInRange [sampleRow] :=
  have hf1 : FormReachable
      { initialCreateForm with topics := ["technology"] } :=
    FormReachable.setTopics ["technology"] FormReachable.init
  have hf2 : FormReachable
      { initialCreateForm with
          topics := ["technology"], hostVoice := "voiceA" } :=
    FormReachable.setHostVoice "voiceA" hf1
  have hf3 : FormReachable sampleForm :=
    FormReachable.setCoHostVoice "voiceB" hf2
  have hre : AppReachable [sampleRow] :=
    AppReachable.step AppReachable.empty
      (AppStep.create sampleForm "user-1" sampleRow.id 100 sampleRequest
        hf3 (by decide) (by decide))
  ⟨hre, duration_bounds_invariant.2 [sampleRow] hre⟩

/-- C8: the Assembler's reported duration is exactly the sum of the
segment durations plus one gap per adjacent pair (`n-1` gaps for `n`
segments), and Scenario E — durations [2,3,1,4,2] with 0.5-second gaps
— comes to exactly 14 seconds. -/
theorem assembleDuration_exact :
    (∀ (s : AudioSegment) (rest : List AudioSegment) (gap : ℚ),
      assembleDuration (s :: rest) gap =
        s.duration + sumDurations rest + gap * rest.length) ∧
    assembleDuration scenarioESegments (1 / 2) = 14 := by
  constructor
  · intro s rest gap
    induction rest generalizing s with
    | nil => simp [assembleDuration, sumDurations]
    | cons s2 rest ih =>
      rw [assembleDuration, ih s2]
      simp only [sumDurations, List.map_cons, List.sum_cons,
        List.length_cons]
      push_cast
      ring
  · simp only [scenarioESegments, assembleDuration]
    norm_num

/-- Helper for C9: sorting never adds or removes rows, whichever sort
key the page uses. -/
theorem mem_sortPodcasts (sortKey : String) (l : List PodcastRow)
    (p : PodcastRow) (h : p ∈ sortPodcasts sortKey l) : p ∈ l := by
  unfold sortPodcasts at h
  split_ifs at h with h1 h2 h3 h4
  · exact (List.perm_insertionSort createdAsc l).mem_iff.mp h
  · exact (List.perm_insertionSort createdDesc l).mem_iff.mp h
  · exact (List.perm_insertionSort durationAsc l).mem_iff.mp h
  · exact (List.perm_insertionSort durationDesc l).mem_iff.mp h
  · exact h

/-- C9: a podcast whose `topics` array is empty never appears in
`filteredPodcasts`, whatever the search query (the empty one included),
status filter and sort key: the topic match is `topics.some(...)`,
which is false on an empty array. -/
theorem emptyTopics_excluded (podcasts : List PodcastRow)
    (searchQuery statusFilter sortKey : String) (p : PodcastRow)
    (hmem : p ∈ podcasts) (htop : p.topics = []) :
    p ∉ filteredPodcasts podcasts searchQuery statusFilter sortKey := by
  intro hin
  have hf : p ∈ podcasts.filter
      (fun x => matchesSearch searchQuery x && matchesStatus statusFilter x) :=
    mem_sortPodcasts sortKey _ p hin
  have := (List.mem_filter.mp hf).2
  rw [Bool.and_eq_true] at this
  have hsearch := this.1
  unfold matchesSearch at hsearch
  rw [htop] at hsearch
  simp at hsearch

/-- Witness for C9: the topic-less row is excluded from the displayed
list even for the empty search query with no status filter. -/
theorem emptyTopics_excluded_witness :
    noTopicsRow ∈ [noTopicsRow] ∧ noTopicsRow.topics = [] ∧
    noTopicsRow ∉ filteredPodcasts [noTopicsRow] "" "all" "created_desc" :=
  ⟨List.mem_singleton.mpr rfl, rfl,
    emptyTopics_excluded [noTopicsRow] "" "all" "created_desc" noTopicsRow
      (List.mem_singleton.mpr rfl) rfl⟩

/-- C10: `voiceApi.getAll` is total at its interface: for every
response shape and for every network failure it returns a plain voice
list — the body's array for an OK array response, the `voices` field
for an OK object response carrying one, and the empty list in every
other case (network failure, non-OK status, unparseable body, object
without a `voices` field) — never propagating an error. -/
theorem voiceApi_getAll_total :
    (∀ msg, voiceApi.getAll (.netError msg) = []) ∧
    (∀ body, voiceApi.getAll (.response false body) = []) ∧
    voiceApi.getAll (.response true .notJson) = [] ∧
    (∀ vs, voiceApi.getAll (.response true (.arr vs)) = vs) ∧
    (∀ vs, voiceApi.getAll (.response true (.objWithVoices vs)) = vs) ∧
    voiceApi.getAll (.response true .objWithoutVoices) = [] := by
  refine ⟨fun _ => rfl, fun body => ?_, rfl, fun _ => rfl, fun _ => rfl, rfl⟩
  cases body <;> rfl
